import Mathlib

/-!
# Verification of the Limbic Memory backend (`backend/main.py`)

A shallow embedding of the memory-orchestration core: the context budget
enforcer, the embedding gateway fallback, the memory-recall tool, the
tool-call loop, the hippocampus consolidation task, and the streaming
response pipeline (`gen`).  External capabilities (LLM chat/embedding
calls, the chroma vector store, JSON/regex boundary parsing, wall-clock
time) are modelled as explicit oracle parameters; everything the Python
file itself computes is translated directly.
-/

set_option autoImplicit false

namespace Limbic

/-- Pairs each element of a list with its index, starting at `n`
(Python `enumerate` with a start offset). -/
def idxFrom {α : Type} (n : Nat) : List α → List (Nat × α)
  | [] => []
  | a :: rest => (n, a) :: idxFrom (n + 1) rest

/-- Python `enumerate(l)`. -/
def withIdx {α : Type} (l : List α) : List (Nat × α) :=
  idxFrom 0 l

/-- Python `pat in s` substring test (for non-empty `pat`). -/
def strContains (s pat : String) : Bool :=
  (s.splitOn pat).length ≥ 2

/-- Python `str.lower()` (ASCII case folding, structurally defined). -/
def strLower (s : String) : String :=
  ⟨s.data.map Char.toLower⟩

/-- Python `str.strip()`: drop leading and trailing whitespace
(structurally defined). -/
def pyStrip (s : String) : String :=
  ⟨((s.data.dropWhile Char.isWhitespace).reverse.dropWhile Char.isWhitespace).reverse⟩

/-! ## Messages and the Context Budget Enforcer (`enforce_context_budget`) -/

/-- A transient chat message as assembled by `chat_stream`: role, content,
and the two private flags `_injected_raw` / `_compressed_gap`. -/
structure Msg where
  role : String
  content : String
  injectedRaw : Bool := false
  compressedGap : Bool := false
deriving DecidableEq, Repr

/-- `m.get("role") in {"user","assistant"}`. -/
def isUserOrAssistant (m : Msg) : Bool :=
  m.role == "user" || m.role == "assistant"

/-- Total character length of user/assistant contents
(the `total_chars` accumulation in `enforce_context_budget`). -/
def uaTotalChars (ms : List Msg) : Nat :=
  (ms.filter isUserOrAssistant).foldl (fun a m => a + m.content.length) 0

/-- `per_index_len.get(i, 0)`: content length at index `i` when that
message is user/assistant, else 0. -/
def uaLenAt (ms : List Msg) (i : Nat) : Nat :=
  match ms.get? i with
  | some m => if isUserOrAssistant m then m.content.length else 0
  | none => 0

/-- Indices of messages flagged `_injected_raw`, in order. -/
def injectedIndices (ms : List Msg) : List Nat :=
  ((withIdx ms).filter (fun p => p.2.injectedRaw)).map Prod.fst

/-- Indices of system-role messages, in order. -/
def systemIndices (ms : List Msg) : List Nat :=
  ((withIdx ms).filter (fun p => p.2.role == "system")).map Prod.fst

/-- Sum of system-message content lengths (the pre-seeding of `running`). -/
def sysChars (ms : List Msg) : Nat :=
  (ms.filter (fun m => m.role == "system")).foldl (fun a m => a + m.content.length) 0

/-- `max(0, min(pin_first, len(injected_indices)))`. -/
def clampPinFirst (pinCfg : Int) (injCount : Nat) : Nat :=
  (max 0 (min pinCfg (injCount : Int))).toNat

/-- The backward scan of `enforce_context_budget`: walk the (reversed,
index-paired) message list, keeping every already-kept index, every
user/assistant message that still fits `running + l <= budget` (pinned
indices would be exempt from the fit test, though they are always already
in the keep set), and every non-user/assistant message. -/
def backScan (budget : Int) (pinned : List Nat) :
    List (Nat × Msg) → List Nat → Nat → List Nat × Nat
  | [], keep, running => (keep, running)
  | (i, m) :: rest, keep, running =>
    if keep.contains i then backScan budget pinned rest keep running
    else if isUserOrAssistant m then
      let l := m.content.length
      if ((running : Int) + l > budget) && !(pinned.contains i) then
        backScan budget pinned rest keep running
      else backScan budget pinned rest (i :: keep) (running + l)
    else backScan budget pinned rest (i :: keep) running

/-- Rebuild phase: walk the indexed messages; at `insertPos` first emit the
compressed-gap marker, skip removed indices, keep the rest. -/
def rebuild (cmsg : Msg) (insertPos : Nat) (removed : List Nat) :
    List (Nat × Msg) → List Msg
  | [] => []
  | (i, m) :: rest =>
    let tail := rebuild cmsg insertPos removed rest
    let withM := if removed.contains i then tail else m :: tail
    if i = insertPos then cmsg :: withM else withM

/-- The pinned indices: the earliest (clamped) `pin_first` injected
indices. -/
def pinnedIndices (ms : List Msg) (pinFirstCfg : Int) : List Nat :=
  (injectedIndices ms).take (clampPinFirst pinFirstCfg (injectedIndices ms).length)

/-- The keep-set and running total computed by `enforce_context_budget`
for a message list (systems pre-kept and pre-counted, then the backward
scan). -/
def keepSet (ms : List Msg) (budget : Int) (pinned : List Nat) : List Nat :=
  (backScan budget pinned (withIdx ms).reverse (pinned ++ systemIndices ms) (sysChars ms)).1

/-- The indices `enforce_context_budget` removes: injected indices outside
the keep-set. -/
def removedIdx (ms : List Msg) (budget : Int) (pinned : List Nat) : List Nat :=
  (injectedIndices ms).filter (fun i => !((keepSet ms budget pinned).contains i))

/-- `f"[记忆中间段已压缩 {removed_count} 条 ~{removed_chars}字 已汇总于 background]"`. -/
def compressSummaryText (removedCount removedChars : Nat) : String :=
  "[记忆中间段已压缩 " ++ toString removedCount ++ " 条 ~" ++ toString removedChars
    ++ "字 已汇总于 background]"

/-- `enforce_context_budget(messages)` from `chat_stream`, with the two
configuration reads (`inject_char_budget`, `inject_pin_first` after its
`or 2` default) abstracted as the integer parameters `budgetChars` and
`pinFirstCfg`. -/
def enforce_context_budget (ms : List Msg) (budgetChars pinFirstCfg : Int) : List Msg :=
  if budgetChars ≤ 0 then ms
  else
    let inj := injectedIndices ms
    if inj.isEmpty then ms
    else
      if (uaTotalChars ms : Int) ≤ budgetChars then ms
      else
        let pinned := pinnedIndices ms pinFirstCfg
        let removed := removedIdx ms budgetChars pinned
        if removed.isEmpty then ms
        else
          let removedChars := removed.foldl (fun a i => a + uaLenAt ms i) 0
          let insertPos := if pinned.isEmpty then 0 else pinned.foldl max 0 + 1
          let cmsg : Msg :=
            { role := "system",
              content := compressSummaryText removed.length removedChars,
              compressedGap := true }
          rebuild cmsg insertPos removed (withIdx ms)

/-! ## Embedding Gateway (`get_embedding_dimension`, `embed_texts`) -/

/-- `get_embedding_dimension`: the configured value after the
`dimension or dim or 1536` chain and the `int(...)` conversion is the
parameter (`none` when missing or unparseable); non-positive values fall
back to 1536. -/
def get_embedding_dimension (cfgDim : Option Int) : Nat :=
  match cfgDim with
  | none => 1536
  | some z => if z ≤ 0 then 1536 else z.toNat

/-- `embed_texts`: the provider call is the `outcome` oracle; on failure
return `[[0.0]*dim for _ in texts]` (entries modelled as integers, the
fallback writes exact zeros). -/
def embed_texts (outcome : Except String (List (List Int))) (cfgDim : Option Int)
    (texts : List String) : List (List Int) :=
  match outcome with
  | .ok vs => vs
  | .error _ => texts.map (fun _ => List.replicate (get_embedding_dimension cfgDim) 0)

/-! ## Memory recall tool (`tool_memory_recall`) -/

/-- One flattened match `{"id": _, "content": doc}`. -/
structure RecallItem where
  id : String
  content : String
deriving DecidableEq, Repr

/-- The chroma `query` response shape used by the code: the `documents`
and `ids` groups (either may be missing). -/
structure QueryRes where
  documents : Option (List (List String))
  ids : Option (List (List String))
deriving DecidableEq, Repr

/-- `ids[gi][ji] if gi < len(ids) and ji < len(ids[gi]) else ""`. -/
def idAt (ids : List (List String)) (gi ji : Nat) : String :=
  if gi < ids.length then
    match ids.get? gi with
    | some g => if ji < g.length then (g.get? ji).getD "" else ""
    | none => ""
  else ""

/-- The double `enumerate` flattening loop of `tool_memory_recall`. -/
def flattenMatches (docs ids : List (List String)) : List RecallItem :=
  ((withIdx docs).map (fun p =>
    (withIdx p.2).map (fun q => RecallItem.mk (idAt ids p.1 q.1) q.2))).flatten

/-- Python `flat[:k]` for a possibly negative `k`. -/
def pySliceTo (l : List RecallItem) (k : Int) : List RecallItem :=
  if 0 ≤ k then l.take k.toNat else l.take (l.length - k.natAbs)

/-- `k = top_k or mem_cfg.get("top_k", 5)`: a `None` or `0` argument falls
back to the configured value (itself defaulting to 5). -/
def recallK (topK : Option Int) (cfgTopK : Option Int) : Int :=
  match topK with
  | some t => if t = 0 then cfgTopK.getD 5 else t
  | none => cfgTopK.getD 5

/-- Result of `tool_memory_recall`: `{"results":…, "count":…}` or
`{"error":…}`. -/
inductive RecallOut
  | ok (results : List RecallItem) (count : Nat)
  | err (e : String)
deriving DecidableEq, Repr

/-- `tool_memory_recall(query, top_k)`: config loading, embedding and the
chroma query are folded into the `queryOutcome` oracle (an exception
anywhere in the `try` yields the `error` payload). -/
def tool_memory_recall (queryOutcome : Except String QueryRes)
    (topK cfgTopK : Option Int) : RecallOut :=
  match queryOutcome with
  | .error e => .err e
  | .ok res =>
    let k := recallK topK cfgTopK
    let docs := res.documents.getD []
    let ids := res.ids.getD []
    let flat := flattenMatches docs ids
    .ok (pySliceTo flat k) flat.length

/-! ## Tool-Call Loop (`run_tool_iteration`) -/

/-- The configured `memory.max_tool_loops` value as the code
discriminates it: missing (`.get` default 8), a non-negative int, a
negative int, a float, a digit-only string, a non-digit string, or a
non-numeric value. -/
inductive LoopsCfg
  | missing
  | intVal (n : Nat)
  | negIntVal (n : Nat)
  | floatVal
  | strDigits (n : Nat)
  | strOther
  | nonNum
deriving DecidableEq, Repr

/-- `int(loops_cfg) if isinstance(loops_cfg,(int,float,str)) and
str(loops_cfg).isdigit() else 8`: only non-negative ints and digit-only
strings survive `str(...).isdigit()`. -/
def loopsCfgParsed : LoopsCfg → Nat
  | .missing => 8
  | .intVal n => n
  | .strDigits n => n
  | _ => 8

/-- `loops = min(parsed, 30)`. -/
def clampLoops (c : LoopsCfg) : Nat :=
  min (loopsCfgParsed c) 30

/-- A structured tool call on an assistant message
(`{"id":…, "function":{"name":…, "arguments":…}}`). -/
structure ToolCallRec where
  id : String
  name : String
  arguments : String
deriving DecidableEq, Repr

/-- A chat message inside the tool loop (assistant/tool roles carry the
correlation fields). -/
structure ChatMsg where
  role : String
  content : String
  toolCallId : Option String := none
  name : Option String := none
  toolCalls : List ToolCallRec := []
deriving DecidableEq, Repr

/-- Telemetry record of one executed tool call (`executed.append` shape).
`argumentsJson` stands for the JSON rendering of the parsed arguments,
`durationMs` for the wall-clock measurement (time is outside the model,
recorded values are carried opaquely). -/
structure Step where
  name : Option String
  argumentsJson : Option String
  resultPreview : Option String
  durationMs : Option Nat
deriving DecidableEq, Repr

/-- One model turn as extracted at the boundary: the optional text content
and the (possibly empty) list of structured tool calls. -/
structure ModelTurn where
  content : Option String
  toolCalls : List ToolCallRec
deriving DecidableEq, Repr

/-- Outcome of one `chat.completions.create` planning call. -/
inductive TurnOutcome
  | fails (e : String)
  | turn (t : ModelTurn)
deriving DecidableEq, Repr

/-- A recognized inline tool invocation (`_try_parse_inline_tool` result),
with the arguments kept in their JSON rendering. -/
structure InlineCall where
  name : String
  argsJson : String
deriving DecidableEq, Repr

/-- Oracles for the tool loop: the planning model (per iteration index),
the inline-text parser boundary (`_try_parse_inline_tool`), the two
memory tools (each returns its serialized result dict and never raises),
and the uuid generator for synthetic call ids. -/
structure ToolEnv where
  behav : Nat → TurnOutcome
  inlineOf : String → Option InlineCall
  execStore : String → String
  execRecall : String → String
  freshId : Nat → String

/-- Dispatch on the tool name (`memory_store` / `memory_recall` /
unknown-tool error payload). -/
def toolDispatch (env : ToolEnv) (nm rawArgs : String) : String :=
  if nm = "memory_store" then env.execStore rawArgs
  else if nm = "memory_recall" then env.execRecall rawArgs
  else "\x7b\"error\": \"unknown tool " ++ nm ++ "\"\x7d"

/-- Execute a list of tool calls in order: extend the step telemetry and
append one tool-role message per call. -/
def execToolCalls (env : ToolEnv) (tcs : List ToolCallRec)
    (msgs : List ChatMsg) (steps : List Step) : List ChatMsg × List Step :=
  match tcs with
  | [] => (msgs, steps)
  | tc :: rest =>
    let result := toolDispatch env tc.name tc.arguments
    let step : Step :=
      { name := some tc.name,
        argumentsJson := some tc.arguments,
        resultPreview := some (result.take 500),
        durationMs := some 0 }
    let toolMsg : ChatMsg :=
      { role := "tool", content := result, toolCallId := some tc.id, name := some tc.name }
    execToolCalls env rest (msgs ++ [toolMsg]) (steps ++ [step])

/-- `inline_call`: tried only when no structured tool calls came back and
the content is truthy. -/
def turnInline (env : ToolEnv) (t : ModelTurn) : Option InlineCall :=
  if t.toolCalls.isEmpty then
    match t.content with
    | some c => if c.isEmpty then none else env.inlineOf c
    | none => none
  else none

/-- The terminating branch: append the final assistant content when
truthy. -/
def finalAssistantAppend (t : ModelTurn) (msgs : List ChatMsg) : List ChatMsg :=
  match t.content with
  | some c => if c.isEmpty then msgs else msgs ++ [⟨"assistant", c, none, none, []⟩]
  | none => msgs

/-- Record the assistant message carrying the (structured or
synthesized-from-inline) tool calls, returning the updated messages and
the calls to execute. -/
def turnCallsAndMsgs (env : ToolEnv) (idx : Nat) (t : ModelTurn)
    (msgs : List ChatMsg) : List ChatMsg × List ToolCallRec :=
  if !t.toolCalls.isEmpty then
    (msgs ++ [⟨"assistant", t.content.getD "", none, none, t.toolCalls⟩], t.toolCalls)
  else
    match turnInline env t with
    | some ic =>
      (msgs ++ [⟨"assistant", "", none, none, [⟨env.freshId idx, ic.name, ic.argsJson⟩]⟩],
       [⟨env.freshId idx, ic.name, ic.argsJson⟩])
    | none => (msgs, [])

/-- The body of `run_tool_iteration`'s `for loop_idx in range(loops)`:
fuel-indexed recursion; the third component counts model planning calls
actually made. -/
def runToolLoop (env : ToolEnv) :
    Nat → Nat → List ChatMsg → List Step → List ChatMsg × List Step × Nat
  | 0, _, msgs, steps => (msgs, steps, 0)
  | fuel + 1, idx, msgs, steps =>
    match env.behav idx with
    | .fails _ => (msgs, steps, 1)
    | .turn t =>
      if t.toolCalls.isEmpty ∧ turnInline env t = none then
        (finalAssistantAppend t msgs, steps, 1)
      else
        let pr := turnCallsAndMsgs env idx t msgs
        let ex := execToolCalls env pr.2 pr.1 steps
        let r := runToolLoop env fuel (idx + 1) ex.1 ex.2
        (r.1, r.2.1, r.2.2 + 1)

/-- `run_tool_iteration(client, model_name, messages, tools)` with the
configured loop ceiling. -/
def run_tool_iteration (env : ToolEnv) (cfg : LoopsCfg) (msgs : List ChatMsg) :
    List ChatMsg × List Step × Nat :=
  runToolLoop env (clampLoops cfg) 0 msgs []

/-! ## Consolidation task (`run_hippocampus_transform`) -/

/-- One durable raw-history entry (timestamps elided; they are wall-clock
values never read back by the core logic). -/
structure HistEntry where
  role : String
  content : String
deriving DecidableEq, Repr

/-- The Session Memory Document fields the core reads and writes. -/
structure ShortMem where
  background : String
  stm : List String
  raw_history : List HistEntry
deriving DecidableEq, Repr

/-- One `ltm_written` record: `{"text":…, "id":…}` (the `except` branch
writing an `error` key is dead code, `tool_memory_store` never raises). -/
structure WrittenEntry where
  text : String
  id : Option String
  error : Option String
deriving DecidableEq, Repr

/-- The consolidation report dict; absent keys are `none`. -/
structure HipReport where
  enabled : Option Bool := none
  error : Option String := none
  background : Option String := none
  stm_size : Option Nat := none
  ltm_candidate_count : Option Nat := none
  ltm_written : Option (List WrittenEntry) := none
  raw_output : Option String := none
deriving DecidableEq, Repr

/-- `{"enabled": False, "error": e}`. -/
def mkDisabled (e : String) : HipReport :=
  { enabled := some false, error := some e }

/-- The hippocampus configuration fields the function branches on. -/
structure HipCfg where
  enableCompression : Bool := true
  compressionPrompt : Option String := none
deriving DecidableEq, Repr

/-- Outcome of the consolidation model call, with the permissive
fenced-JSON parse folded in (the parse is `re` + `json.loads` boundary
work): the raw content, the parsed `background` when it is a string, and
the parsed `ltm_candidates` when it is a list (its string entries). -/
inductive HipCallOutcome
  | fails (e : String)
  | returns (content : String) (parsedBackground : Option String)
      (parsedCandidates : List String)
deriving DecidableEq, Repr

/-- Oracles for the consolidation task: the client/config (config missing
or client construction failure is `cfg = none`), the model call with its
parse, and `tool_memory_store`'s returned id per candidate (`none` when
the store returned an error dict without an `id`). -/
structure HipEnv where
  cfg : Option HipCfg
  callOutcome : HipCallOutcome
  storeId : String → Option String

/-- What `run_hippocampus_transform` did: the returned report, the state
passed to `_save_short_mem` (if it was called at all), and how many
consolidation-model calls were made. -/
structure HipResult where
  report : HipReport
  saved : Option ShortMem
  modelCalls : Nat
deriving DecidableEq, Repr

/-- `run_hippocampus_transform(new_user_text)`.  Note the early return
when `get_hippocampus_client` raises: the user message is neither
appended nor persisted on that path.  `to_prune` is always empty, so the
model call happens only when compression is enabled and a custom
`compression_prompt` is configured. -/
def run_hippocampus_transform (env : HipEnv) (sm0 : ShortMem)
    (newUserText : String) : HipResult :=
  match env.cfg with
  | none => { report := { enabled := some false }, saved := none, modelCalls := 0 }
  | some hip =>
    let sm : ShortMem :=
      { sm0 with raw_history := sm0.raw_history ++ [⟨"user", newUserText⟩] }
    if !hip.enableCompression || (hip.compressionPrompt.getD "").isEmpty then
      { report :=
          { enabled := some true, background := some sm.background,
            stm_size := some sm.stm.length, ltm_written := some [],
            ltm_candidate_count := some 0, raw_output := some "" },
        saved := some sm, modelCalls := 0 }
    else
      match env.callOutcome with
      | .fails e =>
        { report := { enabled := some true, error := some e },
          saved := none, modelCalls := 1 }
      | .returns content bg cands =>
        let backgroundNew := bg.getD sm.background
        let written := (cands.filter (fun c => !((pyStrip c).isEmpty))).map (fun c =>
          ({ text := ((pyStrip c).take 180), id := env.storeId (pyStrip c), error := none }
            : WrittenEntry))
        let sm2 := { sm with background := backgroundNew }
        { report :=
            { enabled := some true, background := some backgroundNew,
              stm_size := some sm.stm.length,
              ltm_written := some written,
              ltm_candidate_count := some cands.length,
              raw_output := some content },
          saved := some sm2, modelCalls := 1 }

/-! ## Tool-step markdown rendering (`format_tool_markdown`) -/

/-- Whether the first step is the synthetic auto-recall
(`'memory_recall' in name and '(auto)' in name`). -/
def stepIsAuto (s : Step) : Bool :=
  match s.name with
  | some n => strContains n "memory_recall" && strContains n "(auto)"
  | none => false

/-- The per-step lines of the generic rendering branch. -/
def stepLines (idx : Nat) (s : Step) : List String :=
  ["**步骤 " ++ toString idx ++ ": " ++ (s.name.getD "tool") ++ "**"]
  ++ (match s.argumentsJson with
      | some a => ["- 参数: `" ++ a.take 280 ++ "`"]
      | none => [])
  ++ (match s.resultPreview with
      | some r => ["- 返回: " ++ r]
      | none => [])
  ++ (match s.durationMs with
      | some d => ["- 耗时: " ++ toString d ++ " ms"]
      | none => [])
  ++ [""]

/-- The 1-based `enumerate(steps, 1)` rendering loop. -/
def stepsBlock (ss : List Step) : List String :=
  (idxFrom 1 ss).foldr (fun p acc => stepLines p.1 p.2 ++ acc) []

/-- `format_tool_markdown(steps)`. -/
def format_tool_markdown (steps : List Step) : String :=
  if steps.isEmpty then ""
  else
    let lines :=
      match steps with
      | s0 :: remaining =>
        if stepIsAuto s0 then
          ["### 记忆激活", "", "**来源**: 自动检索 (auto_query_recall)"]
          ++ (match s0.argumentsJson with
              | some a => ["- 查询: `" ++ a.take 280 ++ "`"]
              | none => [])
          ++ (match s0.resultPreview with
              | some r => ["- 结果: " ++ r]
              | none => [])
          ++ (match s0.durationMs with
              | some d => ["- 耗时: " ++ toString d ++ " ms"]
              | none => [])
          ++ [""]
          ++ (if remaining.isEmpty then []
              else ["### 工具调用步骤 (模型真实触发)", ""] ++ stepsBlock remaining)
        else
          ["### 工具调用步骤 (模型真实触发)", ""] ++ stepsBlock steps
      | [] => []
    String.intercalate "\n" (lines ++ ["---\n"])

/-! ## Streaming Response Pipeline (`gen` inside `chat_stream`) -/

/-- One emitted SSE unit: the one-time start marker payload
(`{"choices":[…], "__start": true}`), a plain content delta, an error
payload (carrying `"error"` plus a content delta), or the terminal
`data: [DONE]` line. -/
inductive Chunk
  | start
  | content (s : String)
  | errChunk (err : String) (s : String)
  | done
deriving DecidableEq, Repr

/-- One event of a provider token stream as the loop sees it: a chunk
whose extracted content is `content` (empty string means the falsy
`delta.content` test fails and the chunk is skipped), a chunk whose
parsing raises (caught, `continue`), or the client being observed as
disconnected before the chunk. -/
inductive StreamEv
  | chunk (content : String)
  | malformed
  | disc
deriving DecidableEq, Repr

/-- The hippocampus task as the stream-close code can observe it in a
cooperative model: no task was created; the task is still pending and
every bounded wait on it times out; the task is pending and the next
wait returns a report / raises an error; the task already completed with
a report / with an exception. -/
inductive TaskState
  | noTask
  | running
  | willComplete (r : HipReport)
  | willFail (e : String)
  | doneOk (r : HipReport)
  | doneErr (e : String)
deriving DecidableEq, Repr

/-- The environment of one `gen` run: the (already normalized) model
name, the pre-computed tool steps, the hippocampus task state and the
pre-set `hippocampus_report`, the two inline detectors
(`_try_parse_inline_tool` and the `memory_store("…")`-style regex, both
`re`/`json` boundary parsers), the inline tool executor (returns the
serialized result dict), and the two provider stream creations. -/
structure GenEnv where
  model : String
  steps : List Step
  task : TaskState
  preset : Option HipReport
  tryJson : String → Option InlineCall
  tryFunc : String → Option InlineCall
  toolExec : InlineCall → String
  stream1 : Except String (List StreamEv)
  stream2 : Except String (List StreamEv)

/-- `{None, "", "string", "model", "undefined", "null"}` membership for a
string (the `None` member can only equal a non-string, so only the string
placeholders matter). -/
def invalidPlaceholder (s : String) : Bool :=
  s = "" || s = "string" || s = "model" || s = "undefined" || s = "null"

/-- `raw_model = (body.model or "").strip() if body.model else ""`. -/
def rawModel : Option String → String
  | none => ""
  | some s => if s.isEmpty then "" else pyStrip s

/-- The model-name normalization at the top of `chat_stream`: placeholder
(after strip+lower) falls back to `chat_cfg.get("model", "gpt-4o-mini")`. -/
def normalizeModel (bodyModel cfgModel : Option String) : String :=
  let raw := rawModel bodyModel
  if invalidPlaceholder (strLower raw) then cfgModel.getD "gpt-4o-mini" else raw

/-- `if not model or model.lower() in invalid_placeholders` inside `gen`. -/
def modelNotConfigured (m : String) : Bool :=
  m.isEmpty || invalidPlaceholder (strLower m)

/-- `finalize_and_build_hippocampus_summary`'s report resolution: resolve
the task with a bounded wait (timeout ⇒ `{enabled:false,error:"timeout"}`),
or fall back to the pre-set report / `not_started`. -/
def finalizeReport (task : TaskState) (preset : Option HipReport) : HipReport :=
  match task with
  | .noTask =>
    match preset with
    | some r => r
    | none => mkDisabled "not_started"
  | .running => mkDisabled "timeout"
  | .willComplete r => r
  | .willFail e => mkDisabled e
  | .doneOk r => r
  | .doneErr e => mkDisabled e

/-- The main-path pre-wait on the hippocampus task (the block just before
the final summary), which uses the distinct `"hippocampus timeout"`
message; returns the updated task state and report. -/
def preAwaitMain (task : TaskState) (preset : Option HipReport) :
    TaskState × Option HipReport :=
  match task with
  | .noTask => (.noTask, preset)
  | .running => (.running, some (mkDisabled "hippocampus timeout"))
  | .willComplete r => (.doneOk r, some r)
  | .willFail e => (.doneErr e, some (mkDisabled e))
  | .doneOk r => (.doneOk r, some r)
  | .doneErr e => (.doneErr e, some (mkDisabled e))

/-- `"  - ❌ {text}: {error}"` (a missing error key prints as `None`). -/
def writtenErrLine (w : WrittenEntry) : String :=
  "  - ❌ " ++ w.text ++ ": " ++ (match w.error with | some e => e | none => "None")

/-- One `写入详情` line: id-bearing entries render with ✅, the rest with ❌. -/
def writtenLine (w : WrittenEntry) : String :=
  match w.id with
  | some i => if i.isEmpty then writtenErrLine w else "  - ✅ " ++ i ++ ": " ++ w.text
  | none => writtenErrLine w

/-- JSON string literal (escaping is serializer boundary work, elided). -/
def jsonStr (s : String) : String :=
  "\"" ++ s ++ "\""

/-- Render an optional value as JSON via the given renderer, `null` when
absent. -/
def jsonOpt {α : Type} (f : α → String) : Option α → String
  | some a => f a
  | none => "null"

/-- `json.dumps` of one `ltm_written` entry in insertion-key order. -/
def renderWritten (w : WrittenEntry) : String :=
  match w.error with
  | some e => "\x7b\"text\": " ++ jsonStr w.text ++ ", \"error\": " ++ jsonStr e ++ "\x7d"
  | none => "\x7b\"text\": " ++ jsonStr w.text ++ ", \"id\": "
      ++ jsonOpt jsonStr w.id ++ "\x7d"

/-- `json.dumps(summary_json, ensure_ascii=False)` for the machine-parsable
marker, keys in insertion order. -/
def renderSummaryJson (rep : HipReport) : String :=
  "\x7b\"enabled\": " ++ jsonOpt (fun b => if b then "true" else "false") rep.enabled
  ++ ", \"error\": " ++ jsonOpt jsonStr rep.error
  ++ ", \"stm_size\": " ++ jsonOpt toString rep.stm_size
  ++ ", \"ltm_candidate_count\": " ++ jsonOpt toString rep.ltm_candidate_count
  ++ ", \"ltm_written\": "
  ++ jsonOpt (fun l => "[" ++ String.intercalate ", " (l.map renderWritten) ++ "]")
      rep.ltm_written
  ++ ", \"has_background\": "
  ++ (if (rep.background.getD "").isEmpty then "false" else "true")
  ++ "\x7d"

/-- The string built from the resolved report by
`finalize_and_build_hippocampus_summary` (the human-readable block plus
the `<HIPPOCAMPUS>` JSON marker). -/
def buildHipSummary (rep : HipReport) : String :=
  let statusMsg :=
    if rep.enabled = some true then "OK"
    else match rep.error with
      | some e => if e.isEmpty then "disabled" else e
      | none => "disabled"
  let bgLine :=
    match rep.background with
    | some b => if b.isEmpty then "(无)" else (b.take 160).replace "\n" " "
    | none => "(无)"
  let writtenAny := rep.ltm_written.getD []
  let wl := (writtenAny.take 3).map writtenLine
  let writeLines := if wl.isEmpty then ["  - (无)"] else wl
  let ltmCnt := match rep.ltm_candidate_count with | some n => toString n | none => "-"
  let stmSz := match rep.stm_size with | some n => toString n | none => "-"
  let header := "---\n🧠 记忆整合日志 (海马体)\n"
  let coreLines :=
    ["背景摘要: " ++ bgLine,
     "候选条目: " ++ ltmCnt ++ " | STM:" ++ stmSz ++ " | 写入:"
       ++ toString writtenAny.length ++ " | 状态:" ++ statusMsg,
     "写入详情:"]
    ++ writeLines ++ ["---"]
  let block := header ++ String.intercalate "\n" coreLines
  "\n\n" ++ block ++ "\n"
    ++ "<HIPPOCAMPUS>" ++ renderSummaryJson rep ++ "</HIPPOCAMPUS>" ++ "\n"

/-- The per-line emission of a markdown block: split on newlines, skip
empty lines, emit each other line (with a trailing newline) as one
content chunk. -/
def mdEmit (md : String) : List Chunk :=
  if md.isEmpty then []
  else (md.splitOn "\n").filterMap
    (fun l => if l.isEmpty then none else some (Chunk.content (l ++ "\n")))

/-- The inline detection applied to the buffered snippet: the JSON shape
is only tried while the snippet is under 600 characters; the
function-call regex is tried when the JSON shape did not match. -/
def inlineDetect (env : GenEnv) (snippet : String) : Option InlineCall :=
  let ij := if snippet.length < 600 then env.tryJson snippet else none
  match ij with
  | some x => some x
  | none => env.tryFunc snippet

/-- The step recorded by an inline interception. -/
def interceptStep (env : GenEnv) (call : InlineCall) : Step :=
  { name := some call.name,
    argumentsJson := some call.argsJson,
    resultPreview := some ((env.toolExec call).take 300),
    durationMs := some 0 }

/-- Second-pass stream consumption: disconnects break, parse errors are
skipped, non-empty contents are emitted. -/
def processSecond : List StreamEv → List Chunk
  | [] => []
  | .disc :: _ => []
  | .malformed :: rest => processSecond rest
  | .chunk c :: rest =>
    if c.isEmpty then processSecond rest
    else Chunk.content c :: processSecond rest

/-- Result of the primary-stream loop: the chunks it yielded, how many
interceptions fired, how many second-pass stream creations were
attempted, whether the loop returned terminally (interception path, its
chunks already ending in `[DONE]`), and the report it finalized if so. -/
structure LoopOut where
  chunks : List Chunk
  intercepts : Nat
  secondStreams : Nat
  terminal : Bool
  finalReport : Option HipReport
deriving Repr

/-- The `async for chunk in stream` loop of `gen`, carrying `got_any`,
`buffer_first` and `inline_intercept_used`.  A failing second-pass stream
creation is caught by the inner handler and the loop continues
(interception stays consumed). -/
def genLoop (env : GenEnv) :
    List StreamEv → Bool → String → Bool → LoopOut
  | [], _, _, _ => ⟨[], 0, 0, false, none⟩
  | .disc :: _, _, _, _ => ⟨[], 0, 0, false, none⟩
  | .malformed :: rest, g, b, u => genLoop env rest g b u
  | .chunk c :: rest, gotAny, buf, used =>
    if c.isEmpty then genLoop env rest gotAny buf used
    else if gotAny then
      let r := genLoop env rest true buf used
      { r with chunks := Chunk.content c :: r.chunks }
    else
      let buf2 := buf ++ c
      let det := inlineDetect env (pyStrip buf2)
      match det, used with
      | some call, false =>
        let st := interceptStep env call
        let mdC := mdEmit (format_tool_markdown [st])
        (match env.stream2 with
         | .error _ =>
           let r := genLoop env rest false buf2 true
           { r with
             chunks := mdC ++ r.chunks,
             intercepts := r.intercepts + 1,
             secondStreams := r.secondStreams + 1 }
         | .ok evs2 =>
           let rep := finalizeReport env.task env.preset
           ⟨mdC ++ processSecond evs2
              ++ [Chunk.content (buildHipSummary rep), Chunk.done],
            1, 1, true, some rep⟩)
      | _, _ =>
        let r := genLoop env rest true buf2 used
        { r with chunks := Chunk.content c :: r.chunks }

/-- What one `gen` run produced: the chunk sequence, the interception and
stream-creation counts, and the consolidation report it rendered at the
end. -/
structure GenOut where
  chunks : List Chunk
  intercepts : Nat
  primaryStreams : Nat
  secondStreams : Nat
  finalReport : Option HipReport
deriving Repr

/-- The `gen` generator: start marker, tool-step markdown, then either
the not-configured error path, the primary stream (whose creation may
raise into the outer handler), the interception path, or the normal path;
every path ends with the consolidation summary and `data: [DONE]`. -/
def gen (env : GenEnv) : GenOut :=
  let mdC := mdEmit (format_tool_markdown env.steps)
  if modelNotConfigured env.model then
    let rep := finalizeReport env.task env.preset
    { chunks := Chunk.start :: mdC ++
        [Chunk.errChunk "model not configured (server fallback also empty)"
           "[ERROR] model not configured",
         Chunk.content (buildHipSummary rep), Chunk.done],
      intercepts := 0, primaryStreams := 0, secondStreams := 0,
      finalReport := some rep }
  else
    match env.stream1 with
    | .error e =>
      let rep := finalizeReport env.task env.preset
      { chunks := Chunk.start :: mdC ++
          [Chunk.errChunk e ("[ERROR] " ++ e),
           Chunk.content (buildHipSummary rep), Chunk.done],
        intercepts := 0, primaryStreams := 1, secondStreams := 0,
        finalReport := some rep }
    | .ok evs =>
      let lo := genLoop env evs false "" false
      if lo.terminal then
        { chunks := Chunk.start :: mdC ++ lo.chunks,
          intercepts := lo.intercepts, primaryStreams := 1,
          secondStreams := lo.secondStreams, finalReport := lo.finalReport }
      else
        let pa := preAwaitMain env.task env.preset
        let rep := finalizeReport pa.1 pa.2
        { chunks := Chunk.start :: mdC ++ lo.chunks
            ++ [Chunk.content (buildHipSummary rep), Chunk.done],
          intercepts := lo.intercepts, primaryStreams := 1,
          secondStreams := lo.secondStreams, finalReport := some rep }

/-- The inline-interception trigger scenario: the model name is valid and
the primary stream's first event is a non-empty chunk whose buffered
snippet the inline detectors match. -/
def firstPieceIntercepts (env : GenEnv) : Prop :=
  modelNotConfigured env.model = false ∧
  ∃ c rest call, env.stream1 = .ok (StreamEv.chunk c :: rest) ∧
    c.isEmpty = false ∧ inlineDetect env (pyStrip c) = some call

/-! ## Theorems -/

/-- Claim C8: when the embedding capability raises, `embed_texts` returns
one vector per input text, each a zero vector of the configured
embedding dimension (default 1536), without raising to its caller
(`embed_texts` is total by construction). -/
theorem C8_zero_vector_fallback (e : String) (cfgDim : Option Int)
    (texts : List String) (_h : texts ≠ []) :
    (embed_texts (.error e) cfgDim texts).length = texts.length ∧
    (∀ v ∈ embed_texts (.error e) cfgDim texts,
        v = List.replicate (get_embedding_dimension cfgDim) 0) ∧
    get_embedding_dimension none = 1536 := by
  refine ⟨by simp [embed_texts], ?_, rfl⟩
  intro v hv
  simp only [embed_texts, List.mem_map] at hv
  obtain ⟨t, -, hvt⟩ := hv
  exact hvt.symm

theorem C8_zero_vector_fallback_witness :
    (["hello"] : List String) ≠ [] ∧
    ((embed_texts (.error "boom") none ["hello"]).length
        = (["hello"] : List String).length ∧
     (∀ v ∈ embed_texts (.error "boom") none ["hello"],
        v = List.replicate (get_embedding_dimension none) 0) ∧
     get_embedding_dimension none = 1536) :=
  ⟨by decide, C8_zero_vector_fallback "boom" none ["hello"] (by decide)⟩

/-- Claim C9 (as stated) is false: a successful recall with a negative
`top_k` returns `flat[:k]`, whose length exceeds `k`; here `top_k = -1`
over two matches returns one result, and `1 ≤ -1` fails, while `count`
is the untruncated 2. -/
theorem C9_counterexample :
    tool_memory_recall
        (.ok ⟨some [["a", "b"]], some [["i1", "i2"]]⟩) (some (-1)) none
      = .ok [⟨"i1", "a"⟩] 2
    ∧ ¬((1 : Int) ≤ -1) := by
  exact ⟨by decide, by decide⟩

/-- Claim C9 amended: on a successful call, `count` is the total number
of flattened matches; the `results` list never exceeds `count`, and is
bounded by `k` whenever `k` (the effective top-k, with `0`/`None`
falling back to the configured default, itself defaulting to 5) is
non-negative. -/
theorem C9_recall_truncation (qres : QueryRes) (topK cfgTopK : Option Int)
    (results : List RecallItem) (count : Nat)
    (h : tool_memory_recall (.ok qres) topK cfgTopK = .ok results count) :
    count = (flattenMatches (qres.documents.getD []) (qres.ids.getD [])).length ∧
    results.length ≤ count ∧
    (0 ≤ recallK topK cfgTopK → (results.length : Int) ≤ recallK topK cfgTopK) ∧
    recallK (some 0) cfgTopK = cfgTopK.getD 5 ∧
    recallK none cfgTopK = cfgTopK.getD 5 := by
  simp only [tool_memory_recall, RecallOut.ok.injEq] at h
  obtain ⟨hres, hcount⟩ := h
  subst hres hcount
  refine ⟨rfl, ?_, ?_, rfl, rfl⟩
  · unfold pySliceTo
    split <;> simp [Nat.min_le_right, List.length_take, Nat.sub_le,
      Nat.le_trans (Nat.min_le_right _ _) (Nat.sub_le _ _)]
  · intro hk
    unfold pySliceTo
    rw [if_pos hk, List.length_take]
    calc ((min (recallK topK cfgTopK).toNat
            (flattenMatches (qres.documents.getD []) (qres.ids.getD [])).length : Nat) : Int)
        ≤ ((recallK topK cfgTopK).toNat : Int) := by
          exact_mod_cast Nat.min_le_left _ _
      _ = recallK topK cfgTopK := Int.toNat_of_nonneg hk

theorem C9_recall_truncation_witness :
    tool_memory_recall (.ok ⟨some [["a", "b"]], some [["i1", "i2"]]⟩) (some 1) none
      = .ok [⟨"i1", "a"⟩] 2 ∧
    ((2 : Nat) = (flattenMatches [["a", "b"]] [["i1", "i2"]]).length ∧
     ([(⟨"i1", "a"⟩ : RecallItem)]).length ≤ 2 ∧
     (0 ≤ recallK (some 1) none → (([(⟨"i1", "a"⟩ : RecallItem)]).length : Int)
        ≤ recallK (some 1) none) ∧
     recallK (some 0) none = (none : Option Int).getD 5 ∧
     recallK none none = (none : Option Int).getD 5) :=
  ⟨by decide, C9_recall_truncation ⟨some [["a", "b"]], some [["i1", "i2"]]⟩
      (some 1) none [⟨"i1", "a"⟩] 2 (by decide)⟩

/-- Claim C3 (as stated) is false: with the hippocampus configuration
missing (`get_hippocampus_client` raising), `run_hippocampus_transform`
returns `{"enabled": False}` before the append, so the user message is
neither appended to `raw_history` nor persisted. -/
theorem C3_counterexample :
    run_hippocampus_transform ⟨none, .fails "x", fun _ => none⟩
        ⟨"bg", [], []⟩ "remember me"
      = ⟨{ enabled := some false }, none, 0⟩ := by
  rfl

/-- Claim C3 amended: when the hippocampus configuration is missing the
task returns `{enabled:false}` with no append, no persistence and no
model call; when it is present and compression is skipped (compression
disabled, or no custom compression prompt — `to_prune` is always empty),
the appended user message is persisted and an empty-candidate report is
returned with no model call. -/
theorem C3_append_persist (env : HipEnv) (sm0 : ShortMem) (txt : String) :
    (env.cfg = none →
       run_hippocampus_transform env sm0 txt
         = ⟨{ enabled := some false }, none, 0⟩) ∧
    (∀ hip, env.cfg = some hip →
       (!hip.enableCompression || (hip.compressionPrompt.getD "").isEmpty) = true →
       run_hippocampus_transform env sm0 txt =
         ⟨{ enabled := some true, background := some sm0.background,
            stm_size := some sm0.stm.length, ltm_written := some [],
            ltm_candidate_count := some 0, raw_output := some "" },
          some { sm0 with raw_history := sm0.raw_history ++ [⟨"user", txt⟩] },
          0⟩) := by
  constructor
  · intro h
    simp [run_hippocampus_transform, h]
  · intro hip hcfg hskip
    simp [run_hippocampus_transform, hcfg, hskip]

theorem C3_append_persist_witness :
    ((⟨some {}, .fails "x", fun _ => none⟩ : HipEnv).cfg = some {}) ∧
    run_hippocampus_transform (⟨some {}, .fails "x", fun _ => none⟩ : HipEnv)
        ⟨"bg", ["s"], [⟨"user", "old"⟩]⟩ "hi"
      = ⟨{ enabled := some true, background := some "bg",
           stm_size := some 1, ltm_written := some [],
           ltm_candidate_count := some 0, raw_output := some "" },
         some ⟨"bg", ["s"], [⟨"user", "old"⟩, ⟨"user", "hi"⟩]⟩,
         0⟩ :=
  ⟨rfl, (C3_append_persist (⟨some {}, .fails "x", fun _ => none⟩ : HipEnv)
      ⟨"bg", ["s"], [⟨"user", "old"⟩]⟩ "hi").2 {} rfl (by decide)⟩

/-- The loop body never makes more planning calls than its fuel. -/
lemma runToolLoop_calls_le (env : ToolEnv) (fuel idx : Nat) (msgs : List ChatMsg)
    (steps : List Step) : (runToolLoop env fuel idx msgs steps).2.2 ≤ fuel := by
  induction fuel generalizing idx msgs steps with
  | zero => simp [runToolLoop]
  | succ n ih =>
    simp only [runToolLoop]
    cases env.behav idx with
    | fails e => simp
    | turn t =>
      dsimp only
      split
      · simp
      · have h := ih (idx + 1)
          (execToolCalls env (turnCallsAndMsgs env idx t msgs).2
            (turnCallsAndMsgs env idx t msgs).1 steps).1
          (execToolCalls env (turnCallsAndMsgs env idx t msgs).2
            (turnCallsAndMsgs env idx t msgs).1 steps).2
        simpa using Nat.succ_le_succ h

/-- Against a model stub that always requests at least one structured
tool call, the loop consumes exactly its fuel. -/
lemma runToolLoop_calls_eq (env : ToolEnv)
    (h : ∀ i, ∃ t, env.behav i = .turn t ∧ t.toolCalls ≠ [])
    (fuel idx : Nat) (msgs : List ChatMsg) (steps : List Step) :
    (runToolLoop env fuel idx msgs steps).2.2 = fuel := by
  induction fuel generalizing idx msgs steps with
  | zero => simp [runToolLoop]
  | succ n ih =>
    obtain ⟨t, hbeh, htc⟩ := h idx
    simp only [runToolLoop, hbeh]
    rw [if_neg (fun hcon => htc (List.isEmpty_iff.mp hcon.1))]
    simp [ih]

/-- Claim C2: the tool-call loop's iteration ceiling is the configured
`max_tool_loops` clamped to 30, defaulting to 8 for a missing,
non-integer or non-digit-string value; the loop never makes more
planning calls than the ceiling, and under a model stub that always
requests a tool call it terminates exactly at the ceiling with the
accumulated (partial) step list — never raising (`run_tool_iteration`
is total by construction). -/
theorem C2_tool_loop_ceiling (env : ToolEnv) (cfg : LoopsCfg) (msgs : List ChatMsg) :
    clampLoops cfg ≤ 30 ∧
    (run_tool_iteration env cfg msgs).2.2 ≤ clampLoops cfg ∧
    clampLoops .missing = 8 ∧ clampLoops .floatVal = 8 ∧
    clampLoops .strOther = 8 ∧ clampLoops .nonNum = 8 ∧
    (∀ n, clampLoops (.negIntVal n) = 8) ∧
    (∀ n, clampLoops (.intVal n) = min n 30) ∧
    (∀ n, clampLoops (.strDigits n) = min n 30) ∧
    ((∀ i, ∃ t, env.behav i = .turn t ∧ t.toolCalls ≠ []) →
       (run_tool_iteration env cfg msgs).2.2 = clampLoops cfg) :=
  ⟨Nat.min_le_right _ _,
   runToolLoop_calls_le env (clampLoops cfg) 0 msgs [],
   rfl, rfl, rfl, rfl, fun _ => rfl, fun _ => rfl, fun _ => rfl,
   fun h => runToolLoop_calls_eq env h (clampLoops cfg) 0 msgs []⟩

theorem C2_tool_loop_ceiling_witness :
    (run_tool_iteration
        (⟨fun _ => .turn ⟨none, [⟨"id0", "memory_recall", "\x7b\"query\": \"q\"\x7d"⟩]⟩,
          fun _ => none, fun _ => "r", fun _ => "r", fun _ => "fake"⟩ : ToolEnv)
        (.intVal 40) []).2.2 = clampLoops (.intVal 40) :=
  ((C2_tool_loop_ceiling
      (⟨fun _ => .turn ⟨none, [⟨"id0", "memory_recall", "\x7b\"query\": \"q\"\x7d"⟩]⟩,
        fun _ => none, fun _ => "r", fun _ => "r", fun _ => "fake"⟩ : ToolEnv)
      (.intVal 40) []).2.2.2.2.2.2.2.2.2)
    (fun _ => ⟨⟨none, [⟨"id0", "memory_recall", "\x7b\"query\": \"q\"\x7d"⟩]⟩, rfl, by decide⟩)


/-- The backward scan only ever grows the keep-set. -/
lemma backScan_keep_mono (b : Int) (p : List Nat) (l : List (Nat × Msg))
    (keep : List Nat) (run : Nat) {i : Nat} (h : i ∈ keep) :
    i ∈ (backScan b p l keep run).1 := by
  induction l generalizing keep run with
  | nil => simpa [backScan] using h
  | cons pm rest ih =>
    obtain ⟨j, m⟩ := pm
    simp only [backScan]
    split
    · exact ih _ _ h
    · split
      · split
        · exact ih _ _ h
        · exact ih _ _ (List.mem_cons_of_mem _ h)
      · exact ih _ _ (List.mem_cons_of_mem _ h)

/-- Rebuilding keeps every indexed message whose index was not removed. -/
lemma rebuild_mem (cmsg : Msg) (pos : Nat) (removed : List Nat)
    (l : List (Nat × Msg)) {i : Nat} {m : Msg} (h : (i, m) ∈ l)
    (hr : removed.contains i = false) :
    m ∈ rebuild cmsg pos removed l := by
  induction l with
  | nil => simp at h
  | cons pm rest ih =>
    rcases List.mem_cons.mp h with h1 | h1
    · obtain rfl := h1.symm
      simp only [rebuild, hr]
      split
      · exact List.mem_cons_of_mem _ (List.mem_cons_self _ _)
      · exact List.mem_cons_self _ _
    · have hm := ih h1
      simp only [rebuild]
      split
      · split
        · exact List.mem_cons_of_mem _ hm
        · exact List.mem_cons_of_mem _ (List.mem_cons_of_mem _ hm)
      · split
        · exact hm
        · exact List.mem_cons_of_mem _ hm

/-- Indexing: a `get?` hit shows up in `idxFrom n` at the shifted index. -/
lemma mem_idxFrom_of_get {α : Type} {l : List α} {i : Nat} {a : α} (n : Nat)
    (h : l.get? i = some a) : (n + i, a) ∈ idxFrom n l := by
  induction l generalizing i n with
  | nil => simp at h
  | cons x rest ih =>
    cases i with
    | zero =>
      simp only [List.get?] at h
      obtain rfl := Option.some_inj.mp h
      simp [idxFrom]
    | succ j =>
      simp only [List.get?] at h
      have hmem := ih (n + 1) h
      have harith : n + 1 + j = n + (j + 1) := by omega
      rw [harith] at hmem
      exact List.mem_cons_of_mem _ hmem

/-- A system-role message's index is in `systemIndices`. -/
lemma mem_systemIndices {ms : List Msg} {i : Nat} {m : Msg}
    (h : ms.get? i = some m) (hrole : m.role = "system") :
    i ∈ systemIndices ms := by
  have hmem : (i, m) ∈ withIdx ms := by
    have := mem_idxFrom_of_get 0 h
    simpa [withIdx] using this
  unfold systemIndices
  rw [List.mem_map]
  exact ⟨(i, m), List.mem_filter.mpr ⟨hmem, by simp [hrole]⟩, rfl⟩

/-- Any index in the initial keep-set (pinned or system) is never in the
removed set. -/
lemma not_mem_removedIdx {ms : List Msg} {b : Int} {pinned : List Nat} {i : Nat}
    (h : i ∈ pinned ++ systemIndices ms) : i ∉ removedIdx ms b pinned := by
  intro hmem
  unfold removedIdx at hmem
  rw [List.mem_filter] at hmem
  have hkeep : i ∈ keepSet ms b pinned := backScan_keep_mono _ _ _ _ _ h
  have hct : (keepSet ms b pinned).contains i = true := by simp [hkeep]
  have hc := hmem.2
  rw [hct] at hc
  simp at hc

/-- Claim C4, preservation half (the part that holds): the enforcer never
removes a system-role message nor any pinned injected message. -/
theorem C4_no_eviction (ms : List Msg) (b p : Int) (i : Nat) (m : Msg)
    (hget : ms.get? i = some m)
    (hkeep : m.role = "system" ∨ i ∈ pinnedIndices ms p) :
    m ∈ enforce_context_budget ms b p := by
  have hself : m ∈ ms := List.get?_mem hget
  have hinit : i ∈ pinnedIndices ms p ++ systemIndices ms := by
    rcases hkeep with h | h
    · exact List.mem_append_right _ (mem_systemIndices hget h)
    · exact List.mem_append_left _ h
  have hnr : i ∉ removedIdx ms b (pinnedIndices ms p) := not_mem_removedIdx hinit
  have hwi : (i, m) ∈ withIdx ms := by
    have := mem_idxFrom_of_get 0 hget
    simpa [withIdx] using this
  unfold enforce_context_budget
  dsimp only
  split
  · exact hself
  · split
    · exact hself
    · split
      · exact hself
      · split
        · exact hself
        · refine rebuild_mem _ _ _ _ hwi ?_
          rw [Bool.eq_false_iff]
          intro hc
          exact hnr (List.elem_iff.mp hc)

theorem C4_no_eviction_witness :
    ([(⟨"user", "aaaaaaaa", true, false⟩ : Msg),
      ⟨"user", "bbbbbbbb", true, false⟩,
      ⟨"user", "ccccc", false, false⟩].get? 0
        = some ⟨"user", "aaaaaaaa", true, false⟩) ∧
    (⟨"user", "aaaaaaaa", true, false⟩ : Msg) ∈
      enforce_context_budget
        [⟨"user", "aaaaaaaa", true, false⟩,
         ⟨"user", "bbbbbbbb", true, false⟩,
         ⟨"user", "ccccc", false, false⟩] 10 1 :=
  ⟨rfl, C4_no_eviction
     [⟨"user", "aaaaaaaa", true, false⟩,
      ⟨"user", "bbbbbbbb", true, false⟩,
      ⟨"user", "ccccc", false, false⟩] 10 1 0
     ⟨"user", "aaaaaaaa", true, false⟩ rfl (Or.inr (by decide))⟩

/-- Claim C4, budget-counting half, is false: with budget 10 and the
first injected message (8 chars) pinned, the recent 5-char message is
still kept even though 8 + 5 > 10 — the backward scan skips pinned
indices without adding their lengths to the running total (only system
message lengths pre-seed it). -/
theorem C4_counterexample :
    enforce_context_budget
        [⟨"user", "aaaaaaaa", true, false⟩,
         ⟨"user", "bbbbbbbb", true, false⟩,
         ⟨"user", "ccccc", false, false⟩] 10 1
      = [⟨"user", "aaaaaaaa", true, false⟩,
         ⟨"system", "[记忆中间段已压缩 1 条 ~8字 已汇总于 background]", false, true⟩,
         ⟨"user", "ccccc", false, false⟩]
    ∧ ("aaaaaaaa".length + "ccccc".length > 10) := by
  exact ⟨by decide, by decide⟩

/-- Under any of the three no-op guards the enforcer returns its input. -/
lemma enforce_noop (ms : List Msg) (b p : Int)
    (h : b ≤ 0 ∨ injectedIndices ms = [] ∨ (uaTotalChars ms : Int) ≤ b) :
    enforce_context_budget ms b p = ms := by
  rcases h with h | h | h <;> simp [enforce_context_budget, h]

/-- Claim C5 (as stated) is false: re-applying the enforcer to its own
output can trim further, because the inserted compressed-gap marker is a
system message whose length now pre-seeds the running budget total, and
the pinned message's uncounted characters keep the output above budget. -/
theorem C5_counterexample :
    enforce_context_budget
        (enforce_context_budget
          [⟨"user", "AAAAAAAAAAAAAAAAAAAA", true, false⟩,
           ⟨"user", "BBBBBBBBB", true, false⟩,
           ⟨"user", "CCCCCCCCC", true, false⟩] 10 1) 10 1
      ≠ enforce_context_budget
          [⟨"user", "AAAAAAAAAAAAAAAAAAAA", true, false⟩,
           ⟨"user", "BBBBBBBBB", true, false⟩,
           ⟨"user", "CCCCCCCCC", true, false⟩] 10 1 := by
  decide

/-- Claim C5 amended: the enforcer is idempotent whenever the first
application is a no-op — non-positive budget, no injected message, or a
total user/assistant length within budget. -/
theorem C5_idempotent_when_no_trim (ms : List Msg) (b p : Int)
    (h : b ≤ 0 ∨ injectedIndices ms = [] ∨ (uaTotalChars ms : Int) ≤ b) :
    enforce_context_budget (enforce_context_budget ms b p) b p
      = enforce_context_budget ms b p := by
  rw [enforce_noop ms b p h, enforce_noop ms b p h]

theorem C5_idempotent_when_no_trim_witness :
    ((10 : Int) ≤ 0 ∨
      injectedIndices [(⟨"user", "abc", true, false⟩ : Msg)] = [] ∨
      (uaTotalChars [(⟨"user", "abc", true, false⟩ : Msg)] : Int) ≤ 10) ∧
    enforce_context_budget
        (enforce_context_budget [(⟨"user", "abc", true, false⟩ : Msg)] 10 2) 10 2
      = enforce_context_budget [(⟨"user", "abc", true, false⟩ : Msg)] 10 2 :=
  ⟨Or.inr (Or.inr (by decide)),
   C5_idempotent_when_no_trim [⟨"user", "abc", true, false⟩] 10 2
     (Or.inr (Or.inr (by decide)))⟩

/-- Every chunk `mdEmit` produces is a content chunk. -/
lemma mem_mdEmit {x : Chunk} {md : String} (h : x ∈ mdEmit md) :
    ∃ s, x = Chunk.content s := by
  unfold mdEmit at h
  split at h
  · simp at h
  · rw [List.mem_filterMap] at h
    obtain ⟨l, -, hl⟩ := h
    by_cases he : l.isEmpty
    · rw [if_pos he] at hl
      exact absurd hl (by simp)
    · rw [if_neg he] at hl
      exact ⟨l ++ "\n", (Option.some_inj.mp hl).symm⟩

lemma mdEmit_count_start (md : String) : (mdEmit md).count Chunk.start = 0 :=
  List.count_eq_zero.mpr (fun h => by
    obtain ⟨s, hs⟩ := mem_mdEmit h
    exact Chunk.noConfusion hs)

lemma mdEmit_count_done (md : String) : (mdEmit md).count Chunk.done = 0 :=
  List.count_eq_zero.mpr (fun h => by
    obtain ⟨s, hs⟩ := mem_mdEmit h
    exact Chunk.noConfusion hs)

/-- Every chunk the second-pass stream yields is a content chunk. -/
lemma mem_processSecond {x : Chunk} {evs : List StreamEv} (h : x ∈ processSecond evs) :
    ∃ s, x = Chunk.content s := by
  induction evs with
  | nil => simp [processSecond] at h
  | cons ev rest ih =>
    cases ev with
    | disc => simp [processSecond] at h
    | malformed => exact ih (by simpa [processSecond] using h)
    | chunk c =>
      by_cases hc : c.isEmpty
      · rw [processSecond, if_pos hc] at h
        exact ih h
      · rw [processSecond, if_neg hc] at h
        rcases List.mem_cons.mp h with h1 | h1
        · exact ⟨c, h1⟩
        · exact ih h1

lemma processSecond_count_start (evs : List StreamEv) :
    (processSecond evs).count Chunk.start = 0 :=
  List.count_eq_zero.mpr (fun h => by
    obtain ⟨s, hs⟩ := mem_processSecond h
    exact Chunk.noConfusion hs)

lemma processSecond_count_done (evs : List StreamEv) :
    (processSecond evs).count Chunk.done = 0 :=
  List.count_eq_zero.mpr (fun h => by
    obtain ⟨s, hs⟩ := mem_processSecond h
    exact Chunk.noConfusion hs)

/-- Structural invariant of the primary-stream loop: its chunk output
contains no start and no `[DONE]` marker except, on the terminal
(interception) path, a single final `[DONE]`; on that path the report it
renders is the finalized one. -/
lemma genLoop_spec (env : GenEnv) (evs : List StreamEv) :
    ∀ (g : Bool) (b : String) (u : Bool),
    ∃ pre : List Chunk,
      pre.count Chunk.start = 0 ∧ pre.count Chunk.done = 0 ∧
      ((genLoop env evs g b u).terminal = true →
        (genLoop env evs g b u).chunks = pre ++ [Chunk.done] ∧
        (genLoop env evs g b u).finalReport
          = some (finalizeReport env.task env.preset)) ∧
      ((genLoop env evs g b u).terminal = false →
        (genLoop env evs g b u).chunks = pre) := by
  induction evs with
  | nil =>
    intro g b u
    exact ⟨[], by simp, by simp, by simp [genLoop], by simp [genLoop]⟩
  | cons ev rest ih =>
    intro g b u
    cases ev with
    | disc => exact ⟨[], by simp, by simp, by simp [genLoop], by simp [genLoop]⟩
    | malformed => simpa only [genLoop] using ih g b u
    | chunk c =>
      by_cases hc : c.isEmpty
      · simpa only [genLoop, hc, if_true] using ih g b u
      · rw [Bool.not_eq_true] at hc
        cases g with
        | true =>
          obtain ⟨pre, h1, h2, h3, h4⟩ := ih true b u
          refine ⟨Chunk.content c :: pre, ?_, ?_, ?_, ?_⟩
          · simp [List.count_cons, h1]
          · simp [List.count_cons, h2]
          · simp only [genLoop, hc]
            intro ht
            obtain ⟨hch, hfr⟩ := h3 ht
            exact ⟨by simp [hch], hfr⟩
          · simp only [genLoop, hc]
            intro ht
            simp [h4 ht]
        | false =>
          rcases hdet : inlineDetect env (pyStrip (b ++ c)) with - | call
          · obtain ⟨pre, h1, h2, h3, h4⟩ := ih true (b ++ c) u
            refine ⟨Chunk.content c :: pre, ?_, ?_, ?_, ?_⟩
            · simp [List.count_cons, h1]
            · simp [List.count_cons, h2]
            · simp only [genLoop, hc, hdet]
              intro ht
              obtain ⟨hch, hfr⟩ := h3 ht
              exact ⟨by simp [hch], hfr⟩
            · simp only [genLoop, hc, hdet]
              intro ht
              simp [h4 ht]
          · cases u with
            | true =>
              obtain ⟨pre, h1, h2, h3, h4⟩ := ih true (b ++ c) true
              refine ⟨Chunk.content c :: pre, ?_, ?_, ?_, ?_⟩
              · simp [List.count_cons, h1]
              · simp [List.count_cons, h2]
              · simp only [genLoop, hc, hdet]
                intro ht
                obtain ⟨hch, hfr⟩ := h3 ht
                exact ⟨by simp [hch], hfr⟩
              · simp only [genLoop, hc, hdet]
                intro ht
                simp [h4 ht]
            | false =>
              rcases hstream : env.stream2 with e | evs2
              · obtain ⟨pre, h1, h2, h3, h4⟩ := ih false (b ++ c) true
                refine ⟨mdEmit (format_tool_markdown
                    [interceptStep env call]) ++ pre, ?_, ?_, ?_, ?_⟩
                · simp [List.count_append, h1, mdEmit_count_start]
                · simp [List.count_append, h2, mdEmit_count_done]
                · simp only [genLoop, hc, hdet, hstream]
                  intro ht
                  obtain ⟨hch, hfr⟩ := h3 ht
                  exact ⟨by simp [hch], hfr⟩
                · simp only [genLoop, hc, hdet, hstream]
                  intro ht
                  simp [h4 ht]
              · refine ⟨mdEmit (format_tool_markdown [interceptStep env call])
                    ++ processSecond evs2
                    ++ [Chunk.content (buildHipSummary
                          (finalizeReport env.task env.preset))], ?_, ?_, ?_, ?_⟩
                · simp [List.count_append, mdEmit_count_start,
                    processSecond_count_start, List.count_cons]
                · simp [List.count_append, mdEmit_count_done,
                    processSecond_count_done, List.count_cons]
                · intro _ht
                  constructor
                  · simp [genLoop, hc, hdet, hstream, List.append_assoc]
                  · simp [genLoop, hc, hdet, hstream]
                · intro ht
                  simp [genLoop, hc, hdet, hstream] at ht

/-- Interception accounting in the primary-stream loop: second-pass
stream attempts equal interceptions, at most one interception ever
fires, and none fires once `inline_intercept_used` is set. -/
lemma genLoop_intercepts (env : GenEnv) (evs : List StreamEv) :
    ∀ (g : Bool) (b : String) (u : Bool),
      (genLoop env evs g b u).secondStreams = (genLoop env evs g b u).intercepts ∧
      (genLoop env evs g b u).intercepts ≤ 1 ∧
      (u = true → (genLoop env evs g b u).intercepts = 0) := by
  induction evs with
  | nil => intro g b u; simp [genLoop]
  | cons ev rest ih =>
    intro g b u
    cases ev with
    | disc => simp [genLoop]
    | malformed => simpa only [genLoop] using ih g b u
    | chunk c =>
      by_cases hc : c.isEmpty
      · simpa only [genLoop, hc, if_true] using ih g b u
      · rw [Bool.not_eq_true] at hc
        cases g with
        | true =>
          obtain ⟨h1, h2, h3⟩ := ih true b u
          refine ⟨?_, ?_, ?_⟩ <;> simp only [genLoop, hc]
          · exact h1
          · exact h2
          · exact h3
        | false =>
          rcases hdet : inlineDetect env (pyStrip (b ++ c)) with - | call
          · obtain ⟨h1, h2, h3⟩ := ih true (b ++ c) u
            refine ⟨?_, ?_, ?_⟩ <;> simp only [genLoop, hc, hdet]
            · exact h1
            · exact h2
            · exact h3
          · cases u with
            | true =>
              obtain ⟨h1, h2, h3⟩ := ih true (b ++ c) true
              refine ⟨?_, ?_, ?_⟩ <;> simp only [genLoop, hc, hdet]
              · exact h1
              · exact h2
              · intro bla
                exact h3 rfl
            | false =>
              rcases hstream : env.stream2 with e | evs2
              · obtain ⟨h1, h2, h3⟩ := ih false (b ++ c) true
                refine ⟨?_, ?_, ?_⟩ <;> simp only [genLoop, hc, hdet, hstream]
                · simp [h1]
                · simp [h3 rfl]
                · intro hfalse
                  exact absurd hfalse (by simp)
              · refine ⟨?_, ?_, ?_⟩ <;> simp [genLoop, hc, hdet, hstream]

/-- Resolving the report after the main-path pre-wait agrees with
resolving it directly. -/
lemma finalize_preAwait (st : TaskState) (p : Option HipReport) :
    finalizeReport (preAwaitMain st p).1 (preAwaitMain st p).2 = finalizeReport st p := by
  cases st <;> rfl

/-- Structural invariant of `gen`: the chunk stream is exactly one start
marker, a marker-free body, and one final `[DONE]`; the rendered report
is the finalized one. -/
lemma gen_spec (env : GenEnv) :
    ∃ pre : List Chunk,
      pre.count Chunk.start = 0 ∧ pre.count Chunk.done = 0 ∧
      (gen env).chunks = Chunk.start :: pre ++ [Chunk.done] ∧
      (gen env).finalReport = some (finalizeReport env.task env.preset) := by
  unfold gen
  by_cases hm : modelNotConfigured env.model
  · refine ⟨mdEmit (format_tool_markdown env.steps) ++
      [Chunk.errChunk "model not configured (server fallback also empty)"
         "[ERROR] model not configured",
       Chunk.content (buildHipSummary (finalizeReport env.task env.preset))],
      ?_, ?_, ?_, ?_⟩ <;>
      simp [hm, List.count_append, List.count_cons,
        mdEmit_count_start, mdEmit_count_done, List.append_assoc]
  · rw [Bool.not_eq_true] at hm
    rcases hs : env.stream1 with e | evs
    · refine ⟨mdEmit (format_tool_markdown env.steps) ++
        [Chunk.errChunk e ("[ERROR] " ++ e),
         Chunk.content (buildHipSummary (finalizeReport env.task env.preset))],
        ?_, ?_, ?_, ?_⟩ <;>
        simp [hm, hs, List.count_append, List.count_cons,
          mdEmit_count_start, mdEmit_count_done, List.append_assoc]
    · obtain ⟨pre, h1, h2, h3, h4⟩ := genLoop_spec env evs false "" false
      by_cases ht : (genLoop env evs false "" false).terminal
      · obtain ⟨hch, hfr⟩ := h3 ht
        refine ⟨mdEmit (format_tool_markdown env.steps) ++ pre, ?_, ?_, ?_, ?_⟩
        · simp [List.count_append, h1, mdEmit_count_start]
        · simp [List.count_append, h2, mdEmit_count_done]
        · simp [hm, hs, ht, hch, List.append_assoc]
        · simp [hm, hs, ht, hfr]
      · rw [Bool.not_eq_true] at ht
        have hch := h4 ht
        refine ⟨mdEmit (format_tool_markdown env.steps) ++ pre
            ++ [Chunk.content (buildHipSummary (finalizeReport env.task env.preset))],
            ?_, ?_, ?_, ?_⟩
        · simp [List.count_append, h1, mdEmit_count_start, List.count_cons]
        · simp [List.count_append, h2, mdEmit_count_done, List.count_cons]
        · simp [hm, hs, ht, hch, finalize_preAwait, List.append_assoc]
        · simp [hm, hs, ht, finalize_preAwait]

/-- Claim C1: for every request (over all task states, tool steps, model
validity, stream behaviours including disconnects, malformed chunks,
inline interception and stream-creation failures), the emitted stream is
exactly one start marker first, a body with no further start or `[DONE]`
marker, and a single terminal `data: [DONE]` line at the very end. -/
theorem C1_stream_markers (env : GenEnv) :
    ∃ pre : List Chunk,
      (gen env).chunks = Chunk.start :: pre ++ [Chunk.done] ∧
      pre.count Chunk.start = 0 ∧ pre.count Chunk.done = 0 := by
  obtain ⟨pre, h1, h2, h3, -⟩ := gen_spec env
  exact ⟨pre, h3, h1, h2⟩

/-- A matching first piece fires exactly one interception and one
second-pass stream attempt, whether or not the second stream creation
succeeds. -/
lemma genLoop_first_intercept (env : GenEnv) (c : String) (rest : List StreamEv)
    (call : InlineCall) (hce : c.isEmpty = false)
    (hdet : inlineDetect env (pyStrip c) = some call) :
    (genLoop env (StreamEv.chunk c :: rest) false "" false).intercepts = 1 ∧
    (genLoop env (StreamEv.chunk c :: rest) false "" false).secondStreams = 1 := by
  have hbc : ("" : String) ++ c = c := rfl
  rcases hstream : env.stream2 with e | evs2
  · obtain ⟨h1, -, h3⟩ := genLoop_intercepts env rest false c true
    have h0 := h3 rfl
    constructor <;> simp [genLoop, hce, hbc, hdet, hstream, h0, h1]
  · constructor <;> simp [genLoop, hce, hbc, hdet, hstream]

/-- Claim C6: inline-tool interception fires at most once per turn on
every input; when the buffered first piece of primary output matches the
inline pattern (and interception is still unused, as it is at stream
start), exactly one interception and exactly one second-pass stream
occur — the second-pass output is never pattern-tested, so it can never
re-trigger. -/
theorem C6_inline_intercept_once (env : GenEnv) :
    (gen env).intercepts ≤ 1 ∧ (gen env).secondStreams ≤ 1 ∧
    (firstPieceIntercepts env →
       (gen env).intercepts = 1 ∧ (gen env).secondStreams = 1) := by
  refine ⟨?_, ?_, ?_⟩
  · unfold gen
    by_cases hm : modelNotConfigured env.model
    · simp [hm]
    · rw [Bool.not_eq_true] at hm
      rcases hs : env.stream1 with e | evs
      · simp [hm, hs]
      · obtain ⟨h1, h2, h3⟩ := genLoop_intercepts env evs false "" false
        by_cases ht : (genLoop env evs false "" false).terminal <;>
          simp [hm, hs, ht, h2]
  · unfold gen
    by_cases hm : modelNotConfigured env.model
    · simp [hm]
    · rw [Bool.not_eq_true] at hm
      rcases hs : env.stream1 with e | evs
      · simp [hm, hs]
      · obtain ⟨h1, h2, h3⟩ := genLoop_intercepts env evs false "" false
        by_cases ht : (genLoop env evs false "" false).terminal <;>
          simp [hm, hs, ht, h1, h2]
  · rintro ⟨hm, c, rest, call, hs, hce, hdet⟩
    have hfi := genLoop_first_intercept env c rest call hce hdet
    unfold gen
    by_cases ht : (genLoop env (StreamEv.chunk c :: rest) false "" false).terminal <;>
      constructor <;> simp [hm, hs, ht, hfi.1, hfi.2]

theorem C6_inline_intercept_once_witness :
    (gen ⟨"gpt-4o-mini", [], .noTask, none, fun _ => none,
       fun s => if s = "memory_recall(\"x\")"
         then some ⟨"memory_recall", "\x7b\"query\": \"x\"\x7d"⟩ else none,
       fun _ => "\x7b\"results\": [], \"count\": 0\x7d",
       .ok [.chunk "memory_recall(\"x\")"], .ok []⟩).intercepts = 1 ∧
    (gen ⟨"gpt-4o-mini", [], .noTask, none, fun _ => none,
       fun s => if s = "memory_recall(\"x\")"
         then some ⟨"memory_recall", "\x7b\"query\": \"x\"\x7d"⟩ else none,
       fun _ => "\x7b\"results\": [], \"count\": 0\x7d",
       .ok [.chunk "memory_recall(\"x\")"], .ok []⟩).secondStreams = 1 :=
  (C6_inline_intercept_once _).2.2
    ⟨rfl, "memory_recall(\"x\")", [],
     ⟨"memory_recall", "\x7b\"query\": \"x\"\x7d"⟩, rfl, rfl, rfl⟩

/-- Claim C7: whenever the consolidation task is still pending at stream
close and every bounded wait on it times out, the finalized report
rendered into the stream is exactly `{enabled: false, error: "timeout"}`
(the main path's interim `"hippocampus timeout"` value is overwritten by
the summary builder's own bounded wait), and the stream still terminates
with the `[DONE]` marker. -/
theorem C7_timeout_report (env : GenEnv) (h : env.task = .running) :
    (gen env).finalReport = some (mkDisabled "timeout") ∧
    ∃ pre : List Chunk, (gen env).chunks = pre ++ [Chunk.done] := by
  obtain ⟨pre, -, -, h3, h4⟩ := gen_spec env
  refine ⟨?_, ⟨Chunk.start :: pre, h3⟩⟩
  rw [h4, h]
  rfl

theorem C7_timeout_report_witness :
    (gen ⟨"gpt-4o-mini", [], .running, none, fun _ => none, fun _ => none,
       fun _ => "", .ok [], .ok []⟩).finalReport = some (mkDisabled "timeout") ∧
    ∃ pre : List Chunk,
      (gen ⟨"gpt-4o-mini", [], .running, none, fun _ => none, fun _ => none,
         fun _ => "", .ok [], .ok []⟩).chunks = pre ++ [Chunk.done] :=
  C7_timeout_report _ rfl

/-- Claim C10: a placeholder model name (empty/"string"/"model"/
"undefined"/"null" after strip and lowercase, or absent) falls back to
the configured default chat model (itself defaulting to "gpt-4o-mini");
and whenever the model reaching `gen` is still invalid, the stream is
exactly the start marker, the tool-step markdown, an `[ERROR]` content
chunk, the consolidation summary, and the terminal `[DONE]`, with zero
primary chat-completion stream calls. -/
theorem C10_placeholder_fallback :
    (∀ bodyModel cfgModel : Option String,
       invalidPlaceholder (strLower (rawModel bodyModel)) = true →
       normalizeModel bodyModel cfgModel = cfgModel.getD "gpt-4o-mini") ∧
    (∀ env : GenEnv, modelNotConfigured env.model = true →
       (gen env).primaryStreams = 0 ∧
       (gen env).chunks =
         Chunk.start :: mdEmit (format_tool_markdown env.steps) ++
           [Chunk.errChunk "model not configured (server fallback also empty)"
              "[ERROR] model not configured",
            Chunk.content (buildHipSummary (finalizeReport env.task env.preset)),
            Chunk.done]) := by
  constructor
  · intro bodyModel cfgModel h
    simp [normalizeModel, h]
  · intro env h
    constructor <;> simp [gen, h]

theorem C10_placeholder_fallback_witness :
    (normalizeModel (some " string ") (some "")
       = (some "").getD "gpt-4o-mini") ∧
    ((gen ⟨normalizeModel (some " string ") (some ""), [], .noTask, none,
        fun _ => none, fun _ => none, fun _ => "", .ok [], .ok []⟩).primaryStreams = 0 ∧
     (gen ⟨normalizeModel (some " string ") (some ""), [], .noTask, none,
        fun _ => none, fun _ => none, fun _ => "", .ok [], .ok []⟩).chunks =
       Chunk.start :: mdEmit (format_tool_markdown []) ++
         [Chunk.errChunk "model not configured (server fallback also empty)"
            "[ERROR] model not configured",
          Chunk.content (buildHipSummary (finalizeReport .noTask none)),
          Chunk.done]) :=
  ⟨C10_placeholder_fallback.1 (some " string ") (some "") rfl,
   C10_placeholder_fallback.2
     ⟨normalizeModel (some " string ") (some ""), [], .noTask, none,
      fun _ => none, fun _ => none, fun _ => "", .ok [], .ok []⟩ rfl⟩

end Limbic
